import Mathlib

/-!
Shallow embedding of the PAI job-attempt history resolver
(`src/rest-server/src/models/v2/job-attempt.js`).

The resolver reconciles a live orchestrator (Kubernetes framework) object
with an append-only historical snapshot index (Elasticsearch).  Network
collaborators are modelled as explicit inputs: the Kubernetes GET outcome is
a function from the encoded framework name, the Elasticsearch client is an
optional snapshot store (absent when `ELASTICSEARCH_URI` is unset), and the
health probe outcome is an explicit parameter.  JavaScript semantics that
matter (strict equality across types, truthiness of a function object) are
embedded literally and documented at the point of use.
-/

namespace JobAttemptModel

/-! Name encoder (`convertName` / `encodeName`).

The source hashes platform-managed names with node's `crypto` MD5; we
implement MD5 over `Nat` arithmetic (words are naturals reduced mod `2^32`).
-/

/-- Word modulus: MD5 operates on 32-bit words. -/
def mword : Nat := 4294967296

/-- Addition modulo `2^32`. -/
def madd (x y : Nat) : Nat := (x + y) % mword

/-- Bitwise combinator: combines `k` low bits of `x` and `y` with the
bit-level function `f` (each argument of `f` is `0` or `1`). -/
def bitsW (f : Nat → Nat → Nat) : Nat → Nat → Nat → Nat
  | 0, _, _ => 0
  | k + 1, x, y => f (x % 2) (y % 2) + 2 * bitsW f k (x / 2) (y / 2)

/-- Bitwise AND on 32-bit words. -/
def andW (x y : Nat) : Nat := bitsW (fun a b => a * b) 32 x y

/-- Bitwise OR on 32-bit words. -/
def orW (x y : Nat) : Nat := bitsW (fun a b => a + b - a * b) 32 x y

/-- Bitwise XOR on 32-bit words. -/
def xorW (x y : Nat) : Nat := bitsW (fun a b => (a + b) % 2) 32 x y

/-- Bitwise complement on 32-bit words. -/
def notW (x : Nat) : Nat := 4294967295 - x % mword

/-- Left rotation of a 32-bit word by `n` (`0 < n < 32`). -/
def rotlW (x n : Nat) : Nat :=
  (x % mword * 2 ^ n) % mword + x % mword / 2 ^ (32 - n)

/-- The MD5 sine-derived constant table `T[0..63]`. -/
def md5T : List Nat :=
  [0xd76aa478, 0xe8c7b756, 0x242070db, 0xc1bdceee,
   0xf57c0faf, 0x4787c62a, 0xa8304613, 0xfd469501,
   0x698098d8, 0x8b44f7af, 0xffff5bb1, 0x895cd7be,
   0x6b901122, 0xfd987193, 0xa679438e, 0x49b40821,
   0xf61e2562, 0xc040b340, 0x265e5a51, 0xe9b6c7aa,
   0xd62f105d, 0x02441453, 0xd8a1e681, 0xe7d3fbc8,
   0x21e1cde6, 0xc33707d6, 0xf4d50d87, 0x455a14ed,
   0xa9e3e905, 0xfcefa3f8, 0x676f02d9, 0x8d2a4c8a,
   0xfffa3942, 0x8771f681, 0x6d9d6122, 0xfde5380c,
   0xa4beea44, 0x4bdecfa9, 0xf6bb4b60, 0xbebfbc70,
   0x289b7ec6, 0xeaa127fa, 0xd4ef3085, 0x04881d05,
   0xd9d4d039, 0xe6db99e5, 0x1fa27cf8, 0xc4ac5665,
   0xf4292244, 0x432aff97, 0xab9423a7, 0xfc93a039,
   0x655b59c3, 0x8f0ccc92, 0xffeff47d, 0x85845dd1,
   0x6fa87e4f, 0xfe2ce6e0, 0xa3014314, 0x4e0811a1,
   0xf7537e82, 0xbd3af235, 0x2ad7d2bb, 0xeb86d391]

/-- Per-step left-rotation amounts `s[0..63]`. -/
def md5S : List Nat :=
  [7, 12, 17, 22, 7, 12, 17, 22, 7, 12, 17, 22, 7, 12, 17, 22,
   5, 9, 14, 20, 5, 9, 14, 20, 5, 9, 14, 20, 5, 9, 14, 20,
   4, 11, 16, 23, 4, 11, 16, 23, 4, 11, 16, 23, 4, 11, 16, 23,
   6, 10, 15, 21, 6, 10, 15, 21, 6, 10, 15, 21, 6, 10, 15, 21]

/-- MD5 round function: rounds use F, G, H, I on `(b, c, d)`. -/
def md5F (i b c d : Nat) : Nat :=
  if i < 16 then orW (andW b c) (andW (notW b) d)
  else if i < 32 then orW (andW b d) (andW c (notW d))
  else if i < 48 then xorW (xorW b c) d
  else xorW c (orW b (notW d))

/-- Message-word index used at step `i`. -/
def md5G (i : Nat) : Nat :=
  if i < 16 then i
  else if i < 32 then (5 * i + 1) % 16
  else if i < 48 then (3 * i + 5) % 16
  else 7 * i % 16

/-- One MD5 step on state `(a, b, c, d)` with message block `m`
(16 words). -/
def md5Step (m : List Nat) (st : Nat × Nat × Nat × Nat) (i : Nat) :
    Nat × Nat × Nat × Nat :=
  let a := st.1
  let b := st.2.1
  let c := st.2.2.1
  let d := st.2.2.2
  let f := madd (madd (madd a (md5F i b c d)) (md5T.getD i 0))
    (m.getD (md5G i) 0)
  (d, madd b (rotlW f (md5S.getD i 0)), b, c)

/-- Runs the 64 MD5 steps of one block. -/
def md5Block (st : Nat × Nat × Nat × Nat) (m : List Nat) :
    Nat × Nat × Nat × Nat :=
  let f := (List.range 64).foldl (md5Step m) st
  (madd st.1 f.1, madd st.2.1 f.2.1, madd st.2.2.1 f.2.2.1,
   madd st.2.2.2 f.2.2.2)

/-- Packs a list of bytes into little-endian 32-bit words, 4 bytes each. -/
def bytesToWords : List Nat → List Nat
  | b0 :: b1 :: b2 :: b3 :: rest =>
    (b0 + 256 * b1 + 65536 * b2 + 16777216 * b3) :: bytesToWords rest
  | _ => []

/-- Splits a list into chunks of 64 elements (bounded by the list length). -/
def chunks64 (l : List Nat) : List (List Nat) :=
  go l.length l
where
  go : Nat → List Nat → List (List Nat)
    | 0, _ => []
    | _, [] => []
    | fuel + 1, l => l.take 64 :: go fuel (l.drop 64)

/-- MD5 padding: append `0x80`, zero-fill to 56 mod 64, then the bit length
as a little-endian 64-bit quantity. -/
def md5Pad (msg : List Nat) : List Nat :=
  let padLen := (55 + 64 - msg.length % 64) % 64 + 1
  let bitLen := 8 * msg.length % (2 ^ 64)
  msg ++ (128 :: List.replicate (padLen - 1) 0) ++
    (List.range 8).map (fun i => bitLen / 2 ^ (8 * i) % 256)

/-- Serializes a 32-bit word to 4 little-endian bytes. -/
def wordBytes (w : Nat) : List Nat :=
  [w % 256, w / 256 % 256, w / 65536 % 256, w / 16777216 % 256]

/-- The 16 MD5 digest bytes of a byte-sequence message. -/
def md5Bytes (msg : List Nat) : List Nat :=
  let blocks := chunks64 (md5Pad msg)
  let st := blocks.foldl (fun st b => md5Block st (bytesToWords b))
    (0x67452301, 0xefcdab89, 0x98badcfe, 0x10325476)
  wordBytes st.1 ++ wordBytes st.2.1 ++ wordBytes st.2.2.1 ++
    wordBytes st.2.2.2

/-- Lower-case hex digit for a nibble. -/
def hexDigitChar (n : Nat) : Char :=
  if n < 10 then Char.ofNat (48 + n)
  else if n < 16 then Char.ofNat (87 + n)
  else 'x'

/-- Hex rendering of a byte list, two digits per byte, high nibble first. -/
def hexOfBytes : List Nat → List Char
  | [] => []
  | b :: bs => hexDigitChar (b / 16 % 16) :: hexDigitChar (b % 16) ::
      hexOfBytes bs

/-- UTF-8 encoding of one character (node's `hash.update(name)` consumes the
name as UTF-8 bytes). -/
def utf8Bytes (c : Char) : List Nat :=
  let n := c.toNat
  if n < 128 then [n]
  else if n < 2048 then [192 + n / 64, 128 + n % 64]
  else if n < 65536 then
    [224 + n / 4096, 128 + n / 64 % 64, 128 + n % 64]
  else
    [240 + n / 262144, 128 + n / 4096 % 64, 128 + n / 64 % 64, 128 + n % 64]

/-- Hex-encoded MD5 digest of a string, as
`crypto.createHash('md5').update(name).digest('hex')`. -/
def md5Hex (s : String) : String :=
  ⟨hexOfBytes (md5Bytes (s.data.foldr (fun c acc => utf8Bytes c ++ acc) []))⟩

/-- True when `p` is an initial segment of `s`
(JS `name.startsWith(p)` on the character sequences). -/
def leadsWith : List Char → List Char → Bool
  | [], _ => true
  | _ :: _, [] => false
  | p :: ps, c :: cs => p == c && leadsWith ps cs

/-- The reserved unassigned-owner marker token. -/
def marker : List Char := String.data "unknown"

/-- JS `name.replace(/^unknown/g, '')`: the anchor `^` matches only at the
start (no multiline), so at most one leading occurrence is removed. -/
def stripMarker (s : List Char) : List Char :=
  if leadsWith marker s then s.drop marker.length else s

/-- Membership of a character in `[a-z0-9]`. -/
def isLowerAlnum (c : Char) : Bool :=
  ('a' ≤ c && c ≤ 'z') || ('0' ≤ c && c ≤ '9')

/-- Membership of a character in `[0-9a-f]` (lower-case hex digits). -/
def isHexChar (c : Char) : Bool :=
  ('0' ≤ c && c ≤ '9') || ('a' ≤ c && c ≤ 'f')

/-- Source `convertName`: lower-case the name, then remove every character
outside `[a-z0-9]` (JS `name.toLowerCase().replace(/[^a-z0-9]/g, '')`;
lower-casing is modelled on the ASCII range). -/
def convertName (name : String) : String :=
  ⟨(name.data.map Char.toLower).filter isLowerAlnum⟩

/-- Source `encodeName`: names starting with the marker or containing no
`~` separator are not platform-managed — strip one leading marker and
normalize; otherwise return the MD5 hex digest of the full name
(JS `name.startsWith('unknown') || !name.includes('~')`). -/
def encodeName (name : String) : String :=
  if leadsWith marker name.data || !(name.data.contains '~') then
    convertName ⟨stripMarker name.data⟩
  else
    md5Hex name

/-! Data model: the fields of the orchestrator response and of the historical snapshots that
the resolver reads. -/

/-- The orchestrator response body (`response.data`): the fields the
resolver reads.  On a 200 the framework fields are meaningful
(`metadata.uid`, `spec.retryPolicy.maxRetryCount`,
`status.attemptStatus.id`); on an error status only `message` is read. -/
structure Framework where
  uid : Option String
  maxRetryCount : Int
  attemptId : Int
  message : String
deriving Repr, DecidableEq

/-- A historical index document: an `objectSnapshot` copy of a framework,
plus its `collectTime`. -/
structure Snapshot where
  fw : Framework
  collectTime : Nat
deriving Repr, DecidableEq

/-- The resolver's output unit, as produced by `convertToJobAttempt` and
tagged with `isLatest` by the caller. -/
structure AttemptSummary where
  attemptId : Int
  sourceUid : Option String
  isLatest : Bool
deriving Repr, DecidableEq

/-- Modelled from the spec: `convertToJobAttempt` lives in
`@pai/utils/frameworkConverter`, which is not under `src/`; the spec
describes it as a pure converter from an orchestrator or historical object
to an attempt summary record.  We model it as extracting the object's
current attempt identifier and uid; the `isLatest` tag is overwritten by
the caller (`{...converted, isLatest: b}` in the source). -/
def convertToJobAttempt (f : Framework) : AttemptSummary :=
  { attemptId := f.attemptId, sourceUid := f.uid, isLatest := false }

/-! Historical index model: the two aggregation queries the resolver builds, interpreted over a
snapshot store per the consumed Elasticsearch contract: filter documents
whose `objectSnapshot.metadata.uid.keyword` equals the target uid, then
aggregate. -/

/-- One step of the latest-hit scan: keep the snapshot with the larger
`collectTime`. -/
def hitStep (acc : Option Snapshot) (s : Snapshot) : Option Snapshot :=
  match acc with
  | none => some s
  | some t => if t.collectTime < s.collectTime then some s else some t

/-- The `top_hits` with `sort: collectTime desc, size: 1`: the hit with the
latest `collectTime` (`none` on an empty hit set). -/
def latestHit (l : List Snapshot) : Option Snapshot :=
  l.foldl hitStep none

/-- Snapshots of the store whose embedded uid matches the target uid. -/
def uidMatches (store : List Snapshot) (uid : String) : List Snapshot :=
  store.filter (fun s => s.fw.uid = some uid)

/-- One step of key deduplication: append a key not seen yet. -/
def dkStep (acc : List Int) (k : Int) : List Int :=
  if k ∈ acc then acc else acc ++ [k]

/-- Distinct keys of a list, first occurrence kept. -/
def dedupKeys (l : List Int) : List Int :=
  l.foldl dkStep []

/-- The all-attempts query of `list`: group matching snapshots by
`objectSnapshot.status.attemptStatus.id` with `order: {_key: 'desc'}`, and
keep the latest-`collectTime` hit of each bucket. -/
def esAllAttempts (store : List Snapshot) (uid : String) : List Snapshot :=
  let ms := uidMatches store uid
  let keys := List.insertionSort (α := Int) (· ≥ ·)
    (dedupKeys (ms.map (fun s => s.fw.attemptId)))
  keys.filterMap (fun k =>
    latestHit (ms.filter (fun s => s.fw.attemptId = k)))

/-- The single-attempt query of `get`: filter matching snapshots to one
attempt identifier, then the latest-`collectTime` hit (`size: 1`, so the
result holds at most one hit). -/
def esSingleAttempt (store : List Snapshot) (uid : String) (idx : Int) :
    List Snapshot :=
  match latestHit ((uidMatches store uid).filter
      (fun s => s.fw.attemptId = idx)) with
  | none => []
  | some s => [s]

/-! Health gate (`healthCheck`). -/

/-- Outcome of the `elasticSearchClient.cat.health()` probe: a result with
a status code, or a thrown exception. -/
inductive ProbeOutcome where
  | result (statusCode : Int)
  | exn (msg : String)
deriving Repr, DecidableEq

/-- JS strict equality between a boolean and a string: always `false`
(`===` never equates values of different types). -/
def jsStrictEqBoolString (_ : Bool) (_ : String) : Bool := false

/-- The source guard `launcherConfig.type === 'yarn' === 'yarn'`: `===` is
left-associative, so this compares the boolean `type === 'yarn'` with the
string `'yarn'`, which is `false` for either boolean. -/
def yarnGuard (launcherType : String) : Bool :=
  jsStrictEqBoolString (launcherType == "yarn") "yarn"

/-- Source `healthCheck`: the legacy-launcher guard, then presence of the
Elasticsearch client, then the liveness probe; a probe exception or a
non-200 probe status resolves to `false` (the `try/catch` swallows it). -/
def healthCheck (launcherType : String) (esClient : Option (List Snapshot))
    (probe : ProbeOutcome) : Bool :=
  if yarnGuard launcherType then false
  else
    match esClient with
    | none => false
    | some _ =>
      match probe with
      | .result statusCode => if statusCode = 200 then true else false
      | .exn _ => false

/-! Attempt reconciler (`list` and `get`). -/

/-- Outcome of the orchestrator GET as observed after the source's
`try/catch`: a structured response (the direct return, or `error.response`
when non-null), or a transport failure with no structured response. -/
inductive K8sOutcome where
  | resp (status : Int) (data : Framework)
  | noResp (msg : String)
deriving Repr, DecidableEq

/-- Errors that `list`/`get` can propagate: `createError(status, name,
message)`, a rethrown transport error, or the TypeError from invoking
`.search` on the undefined Elasticsearch client. -/
inductive JsError where
  | createError (status : Int) (name msg : String)
  | rethrown (msg : String)
  | typeError
deriving Repr, DecidableEq

/-- A call's observable outcome: a returned `{status, data}` record, or a
propagated exception. -/
inductive Outcome (α : Type) where
  | result (status : Int) (data : Option α)
  | exn (e : JsError)
deriving Repr, DecidableEq

/-- Collaborator call counts of one resolution call. -/
structure Trace where
  k8sCalls : Nat
  esSearchCalls : Nat
deriving Repr, DecidableEq

/-- The resolver's environment: the optional Elasticsearch client (with its
store), and the orchestrator GET outcome as a function of the encoded
framework name (the source requests
`launcherConfig.frameworkPath(encodeName(name))`; path construction is
folded into the modelled client). -/
structure Env where
  esClient : Option (List Snapshot)
  k8sGet : String → K8sOutcome

/-- The guard `if (!healthCheck)` at the top of `list` and `get` negates
the truthiness of the function object `healthCheck` — the function is not
called — and a function object is always truthy in JS, so the guard is
`false`. -/
def healthCheckGuard : Bool := false

/-- Source `list`: the (dead) health guard, the live fetch and its
three-way classification, the nil-uid check, the all-attempts query, and
the assembly of the live entry followed by the historical entries. -/
def list (env : Env) (frameworkName : String) :
    Outcome (List AttemptSummary) × Trace :=
  if healthCheckGuard then (.result 501 none, ⟨0, 0⟩)
  else
    match env.k8sGet (encodeName frameworkName) with
    | .noResp msg => (.exn (.rethrown msg), ⟨1, 0⟩)
    | .resp status data =>
      if status = 200 then
        let uid := data.uid
        let live : AttemptSummary :=
          { convertToJobAttempt data with isLatest := true }
        match uid with
        | none => (.result 404 none, ⟨1, 0⟩)
        | some u =>
          match env.esClient with
          | none => (.exn .typeError, ⟨1, 0⟩)
          | some store =>
            let buckets := esAllAttempts store u
            if buckets.isEmpty then (.result 404 none, ⟨1, 1⟩)
            else
              let retries := buckets.map (fun s =>
                { convertToJobAttempt s.fw with isLatest := false })
              (.result 200 (some (live :: retries)), ⟨1, 1⟩)
      else if status = 404 then (.result 404 none, ⟨1, 0⟩)
      else (.exn (.createError status "UnknownError" data.message), ⟨1, 0⟩)

/-- Source `get`: the (dead) health guard, the live fetch and its
classification, then the boundary rule on
`spec.retryPolicy.maxRetryCount`. -/
def get (env : Env) (frameworkName : String) (jobAttemptIndex : Int) :
    Outcome AttemptSummary × Trace :=
  if healthCheckGuard then (.result 501 none, ⟨0, 0⟩)
  else
    match env.k8sGet (encodeName frameworkName) with
    | .noResp msg => (.exn (.rethrown msg), ⟨1, 0⟩)
    | .resp status data =>
      if status = 200 then
        let uid := data.uid
        let attemptFramework := data
        if jobAttemptIndex < attemptFramework.maxRetryCount then
          match uid with
          | none => (.result 404 none, ⟨1, 0⟩)
          | some u =>
            match env.esClient with
            | none => (.exn .typeError, ⟨1, 0⟩)
            | some store =>
              match esSingleAttempt store u jobAttemptIndex with
              | [] => (.result 404 none, ⟨1, 1⟩)
              | s :: _ =>
                (.result 200 (some
                  { convertToJobAttempt s.fw with isLatest := false }),
                 ⟨1, 1⟩)
        else if jobAttemptIndex = attemptFramework.maxRetryCount then
          (.result 200 (some
            { convertToJobAttempt attemptFramework with isLatest := true }),
           ⟨1, 0⟩)
        else (.result 404 none, ⟨1, 0⟩)
      else if status = 404 then (.result 404 none, ⟨1, 0⟩)
      else (.exn (.createError status "UnknownError" data.message), ⟨1, 0⟩)

/-! Supporting lemmas. -/

theorem list_eq (env : Env) (frameworkName : String) :
    list env frameworkName =
      match env.k8sGet (encodeName frameworkName) with
      | .noResp msg => (.exn (.rethrown msg), ⟨1, 0⟩)
      | .resp status data =>
        if status = 200 then
          match data.uid with
          | none => (.result 404 none, ⟨1, 0⟩)
          | some u =>
            match env.esClient with
            | none => (.exn .typeError, ⟨1, 0⟩)
            | some store =>
              if (esAllAttempts store u).isEmpty then
                (.result 404 none, ⟨1, 1⟩)
              else
                (.result 200 (some
                  ({ convertToJobAttempt data with isLatest := true } ::
                    (esAllAttempts store u).map (fun s =>
                      { convertToJobAttempt s.fw with isLatest := false }))),
                 ⟨1, 1⟩)
        else if status = 404 then (.result 404 none, ⟨1, 0⟩)
        else (.exn (.createError status "UnknownError" data.message),
          ⟨1, 0⟩) := by
  rfl

theorem get_eq (env : Env) (frameworkName : String) (jobAttemptIndex : Int) :
    get env frameworkName jobAttemptIndex =
      match env.k8sGet (encodeName frameworkName) with
      | .noResp msg => (.exn (.rethrown msg), ⟨1, 0⟩)
      | .resp status data =>
        if status = 200 then
          if jobAttemptIndex < data.maxRetryCount then
            match data.uid with
            | none => (.result 404 none, ⟨1, 0⟩)
            | some u =>
              match env.esClient with
              | none => (.exn .typeError, ⟨1, 0⟩)
              | some store =>
                match esSingleAttempt store u jobAttemptIndex with
                | [] => (.result 404 none, ⟨1, 1⟩)
                | s :: _ =>
                  (.result 200 (some
                     { convertToJobAttempt s.fw with isLatest := false }),
                   ⟨1, 1⟩)
          else if jobAttemptIndex = data.maxRetryCount then
            (.result 200 (some
               { convertToJobAttempt data with isLatest := true }),
             ⟨1, 0⟩)
          else (.result 404 none, ⟨1, 0⟩)
        else if status = 404 then (.result 404 none, ⟨1, 0⟩)
        else (.exn (.createError status "UnknownError" data.message),
          ⟨1, 0⟩) := by
  rfl

theorem leadsWith_append (p l : List Char) : leadsWith p (p ++ l) = true := by
  induction p with
  | nil => rfl
  | cons c cs ih => simp [leadsWith, ih]

theorem stripMarker_append (l : List Char) :
    stripMarker (marker ++ l) = l := by
  simp [stripMarker, leadsWith_append, List.drop_left]

theorem hexDigitChar_hex : ∀ n, n < 16 → isHexChar (hexDigitChar n) = true := by
  decide

theorem hexOfBytes_length (bs : List Nat) :
    (hexOfBytes bs).length = 2 * bs.length := by
  induction bs with
  | nil => rfl
  | cons b bs ih => simp [hexOfBytes, ih]; omega

theorem hexOfBytes_hex (bs : List Nat) :
    ∀ c ∈ hexOfBytes bs, isHexChar c = true := by
  induction bs with
  | nil => intro c hc; cases hc
  | cons b bs ih =>
    intro c hc
    simp only [hexOfBytes, List.mem_cons] at hc
    rcases hc with hc | hc | hc
    · exact hc ▸ hexDigitChar_hex _ (Nat.mod_lt _ (by omega))
    · exact hc ▸ hexDigitChar_hex _ (Nat.mod_lt _ (by omega))
    · exact ih _ hc

theorem md5Bytes_length (msg : List Nat) : (md5Bytes msg).length = 16 := by
  simp [md5Bytes, wordBytes]

theorem md5Hex_length (s : String) : (md5Hex s).length = 32 := by
  show (md5Hex s).data.length = 32
  simp [md5Hex, hexOfBytes_length, md5Bytes_length]

theorem convertName_alnum (s : String) :
    ∀ c ∈ (convertName s).data, isLowerAlnum c = true := by
  intro c hc
  simp only [convertName] at hc
  exact (List.mem_filter.mp hc).2

theorem foldl_hitStep_mem (l : List Snapshot) :
    ∀ acc s, l.foldl hitStep acc = some s → s ∈ l ∨ acc = some s := by
  induction l with
  | nil => intro acc s h; exact Or.inr h
  | cons x xs ih =>
    intro acc s h
    rcases ih (hitStep acc x) s h with hmem | hacc
    · exact Or.inl (List.mem_cons_of_mem _ hmem)
    · cases acc with
      | none =>
        simp only [hitStep] at hacc
        obtain rfl := Option.some.inj hacc
        exact Or.inl (List.mem_cons_self _ _)
      | some t =>
        simp only [hitStep] at hacc
        by_cases hlt : t.collectTime < x.collectTime
        · rw [if_pos hlt] at hacc
          obtain rfl := Option.some.inj hacc
          exact Or.inl (List.mem_cons_self _ _)
        · rw [if_neg hlt] at hacc
          exact Or.inr hacc

theorem foldl_hitStep_ne_none (l : List Snapshot) :
    ∀ acc, acc ≠ none → l.foldl hitStep acc ≠ none := by
  induction l with
  | nil => intro acc h; exact h
  | cons x xs ih =>
    intro acc _
    apply ih
    cases acc with
    | none => simp [hitStep]
    | some t =>
      simp only [hitStep]
      by_cases hlt : t.collectTime < x.collectTime
      · simp [hlt]
      · simp [hlt]

theorem latestHit_mem {l : List Snapshot} {s : Snapshot}
    (h : latestHit l = some s) : s ∈ l := by
  rcases foldl_hitStep_mem l none s h with hmem | hacc
  · exact hmem
  · exact absurd hacc (by simp)

theorem latestHit_of_ne_nil {l : List Snapshot} (h : l ≠ []) :
    ∃ s, latestHit l = some s := by
  cases l with
  | nil => exact absurd rfl h
  | cons x xs =>
    have hne : xs.foldl hitStep (hitStep none x) ≠ none :=
      foldl_hitStep_ne_none xs (hitStep none x) (by simp [hitStep])
    cases hlh : xs.foldl hitStep (hitStep none x) with
    | none => exact absurd hlh hne
    | some s => exact ⟨s, hlh⟩

theorem foldl_dkStep_mem (l : List Int) :
    ∀ acc x, x ∈ l.foldl dkStep acc ↔ x ∈ acc ∨ x ∈ l := by
  induction l with
  | nil => intro acc x; simp
  | cons k ks ih =>
    intro acc x
    have hstep : x ∈ dkStep acc k ↔ x ∈ acc ∨ x = k := by
      by_cases hk : k ∈ acc
      · simp only [dkStep, if_pos hk]
        constructor
        · exact fun h => Or.inl h
        · intro h; rcases h with h | h
          · exact h
          · exact h ▸ hk
      · simp [dkStep, if_neg hk]
    rw [List.foldl_cons, ih (dkStep acc k) x, hstep, List.mem_cons]
    tauto

theorem foldl_dkStep_nodup (l : List Int) :
    ∀ acc, acc.Nodup → (l.foldl dkStep acc).Nodup := by
  induction l with
  | nil => intro acc h; exact h
  | cons k ks ih =>
    intro acc hacc
    apply ih
    by_cases hk : k ∈ acc
    · simpa [dkStep, if_pos hk] using hacc
    · simp [dkStep, if_neg hk, List.nodup_append, hacc, hk]

theorem dedupKeys_mem (l : List Int) (x : Int) :
    x ∈ dedupKeys l ↔ x ∈ l := by
  rw [dedupKeys, foldl_dkStep_mem]
  simp

theorem dedupKeys_nodup (l : List Int) : (dedupKeys l).Nodup :=
  foldl_dkStep_nodup l [] List.nodup_nil

theorem mapIds_filterMap (keys : List Int) (f : Int → Option Snapshot)
    (h : ∀ k ∈ keys, ∃ s, f k = some s ∧ s.fw.attemptId = k) :
    (keys.filterMap f).map (fun s => s.fw.attemptId) = keys := by
  induction keys with
  | nil => rfl
  | cons k ks ih =>
    obtain ⟨s, hs, hid⟩ := h k (List.mem_cons_self _ _)
    have hrest := ih (fun k hk => h k (List.mem_cons_of_mem _ hk))
    simp [List.filterMap_cons, hs, hid, hrest]

theorem pairwise_and_of {R S : Int → Int → Prop} :
    ∀ {l : List Int}, l.Pairwise R → l.Pairwise S →
      l.Pairwise fun a b => R a b ∧ S a b := by
  intro l
  induction l with
  | nil => intro _ _; exact List.Pairwise.nil
  | cons x xs ih =>
    intro hR hS
    rw [List.pairwise_cons] at hR hS ⊢
    exact ⟨fun y hy => ⟨hR.1 y hy, hS.1 y hy⟩, ih hR.2 hS.2⟩

theorem esAllAttempts_ids (store : List Snapshot) (u : String) :
    (esAllAttempts store u).map (fun s => s.fw.attemptId) =
      List.insertionSort (α := Int) (· ≥ ·)
        (dedupKeys ((uidMatches store u).map (fun s => s.fw.attemptId))) := by
  show ((List.insertionSort (α := Int) (· ≥ ·)
      (dedupKeys ((uidMatches store u).map
        (fun s => s.fw.attemptId)))).filterMap
      (fun k => latestHit ((uidMatches store u).filter
        (fun s => s.fw.attemptId = k)))).map (fun s => s.fw.attemptId) =
    List.insertionSort (α := Int) (· ≥ ·)
      (dedupKeys ((uidMatches store u).map (fun s => s.fw.attemptId)))
  apply mapIds_filterMap
  intro k hk
  have hk' : k ∈ (uidMatches store u).map (fun s => s.fw.attemptId) := by
    rw [List.mem_insertionSort] at hk
    exact (dedupKeys_mem _ _).mp hk
  obtain ⟨s0, hs0, hid0⟩ := List.mem_map.mp hk'
  have hs0f : s0 ∈ (uidMatches store u).filter
      (fun s => s.fw.attemptId = k) := by
    rw [List.mem_filter]
    exact ⟨hs0, by simp [hid0]⟩
  obtain ⟨s, hs⟩ := latestHit_of_ne_nil (List.ne_nil_of_mem hs0f)
  refine ⟨s, hs, ?_⟩
  have hmem := latestHit_mem hs
  have hpred := (List.mem_filter.mp hmem).2
  simpa using hpred

theorem esAllAttempts_sorted (store : List Snapshot) (u : String) :
    List.Sorted (fun a b : Int => a > b)
      ((esAllAttempts store u).map (fun s => s.fw.attemptId)) := by
  rw [esAllAttempts_ids]
  have hs := List.sorted_insertionSort (α := Int) (· ≥ ·)
    (dedupKeys ((uidMatches store u).map (fun s => s.fw.attemptId)))
  have hn : (List.insertionSort (α := Int) (· ≥ ·)
      (dedupKeys ((uidMatches store u).map
        (fun s => s.fw.attemptId)))).Nodup :=
    (List.perm_insertionSort _ _).nodup_iff.mpr (dedupKeys_nodup _)
  exact (pairwise_and_of hs hn).imp
    (fun h => lt_of_le_of_ne h.1 (Ne.symm h.2))

theorem esAllAttempts_mem (store : List Snapshot) (u : String) (k : Int) :
    k ∈ (esAllAttempts store u).map (fun s => s.fw.attemptId) ↔
      ∃ s ∈ uidMatches store u, s.fw.attemptId = k := by
  rw [esAllAttempts_ids, List.mem_insertionSort, dedupKeys_mem, List.mem_map]

/-! Claim theorems. -/

/-- C1: for every job whose live fetch succeeds (status 200 with a non-nil
uid) and a configured historical client, `get` applies the boundary rule
against the live object's `maxRetryCount`: below the bound the answer comes
from the single-attempt history query (zero hits yield 404, a hit is
returned converted with `isLatest = false`); at the bound the converted
live object is returned with `isLatest = true` and the history source is
never queried (search call count 0); above the bound the result is 404
regardless of history contents. -/
theorem C1_get_boundary_rule (env : Env) (name : String) (idx : Int)
    (fw : Framework) (u : String) (store : List Snapshot)
    (hk : env.k8sGet (encodeName name) = .resp 200 fw)
    (hu : fw.uid = some u)
    (hes : env.esClient = some store) :
    (idx < fw.maxRetryCount →
      (esSingleAttempt store u idx = [] →
        get env name idx = (.result 404 none, ⟨1, 1⟩)) ∧
      (∀ s rest, esSingleAttempt store u idx = s :: rest →
        get env name idx = (.result 200 (some
          { convertToJobAttempt s.fw with isLatest := false }), ⟨1, 1⟩))) ∧
    (idx = fw.maxRetryCount →
      get env name idx = (.result 200 (some
        { convertToJobAttempt fw with isLatest := true }), ⟨1, 0⟩)) ∧
    (fw.maxRetryCount < idx →
      get env name idx = (.result 404 none, ⟨1, 0⟩)) := by
  refine ⟨fun hlt => ⟨fun hemp => ?_, fun s rest hcons => ?_⟩,
    fun heq => ?_, fun hgt => ?_⟩
  · rw [get_eq, hk]; simp [hu, hes, hlt, hemp]
  · rw [get_eq, hk]; simp [hu, hes, hlt, hcons]
  · rw [get_eq, hk]; simp [heq]
  · rw [get_eq, hk]
    have h1 : ¬ idx < fw.maxRetryCount := by omega
    have h2 : ¬ idx = fw.maxRetryCount := by omega
    simp [h1, h2]

/-- C1 witness: a concrete job at the boundary (`idx = maxRetryCount = 2`)
returns the converted live object with `isLatest = true` and no search
call. -/
theorem C1_witness :
    get ⟨some [⟨⟨some "u", 2, 1, ""⟩, 3⟩],
        fun _ => .resp 200 ⟨some "u", 2, 2, ""⟩⟩ "job" 2 =
      (.result 200 (some ⟨2, some "u", true⟩), ⟨1, 0⟩) :=
  (C1_get_boundary_rule
    ⟨some [⟨⟨some "u", 2, 1, ""⟩, 3⟩], fun _ => .resp 200 ⟨some "u", 2, 2, ""⟩⟩
    "job" 2 ⟨some "u", 2, 2, ""⟩ "u" [⟨⟨some "u", 2, 1, ""⟩, 3⟩]
    rfl rfl rfl).2.1 rfl

/-- C2 is refuted on the code: the guard `if (!healthCheck)` negates the
function object without calling it, so it never fires.  With the
historical source unavailable (no Elasticsearch client, so `healthCheck`
reports false) `list` and `get` do not return 501: they contact the
orchestrator (k8s call count 1) and then throw a TypeError on the nil
client instead. -/
theorem C2_failing_input :
    healthCheck "k8s" none (.result 200) = false ∧
    list ⟨none, fun _ => .resp 200 ⟨some "uid-1", 1, 1, ""⟩⟩ "job" =
      (.exn .typeError, ⟨1, 0⟩) ∧
    get ⟨none, fun _ => .resp 200 ⟨some "uid-1", 1, 1, ""⟩⟩ "job" 0 =
      (.exn .typeError, ⟨1, 0⟩) := by
  refine ⟨rfl, ?_, ?_⟩ <;> decide

/-- C3 is refuted on the code: `launcherConfig.type === 'yarn' === 'yarn'`
compares the boolean `type === 'yarn'` with the string `'yarn'`, which is
always false, so with launcher type `yarn` and a healthy Elasticsearch
client `healthCheck` returns `true`, not `false`. -/
theorem C3_failing_input :
    yarnGuard "yarn" = false ∧
    healthCheck "yarn" (some []) (.result 200) = true :=
  ⟨rfl, rfl⟩

/-- C4: for every job whose live fetch succeeds (with a non-nil uid and a
configured client) and whose all-attempts query returns at least one
group, `list` returns 200 with the converted live object first
(`isLatest = true`) followed by one entry per historical attempt group
(`isLatest = false` by the map), in strictly descending attempt-identifier
order, the groups being exactly the attempt identifiers present among the
uid-matching snapshots. -/
theorem C4_list_success (env : Env) (name : String) (fw : Framework)
    (u : String) (store : List Snapshot) (b : Snapshot) (bs : List Snapshot)
    (hk : env.k8sGet (encodeName name) = .resp 200 fw)
    (hu : fw.uid = some u)
    (hes : env.esClient = some store)
    (hb : esAllAttempts store u = b :: bs) :
    list env name = (.result 200 (some
      ({ convertToJobAttempt fw with isLatest := true } ::
        (b :: bs).map (fun s =>
          { convertToJobAttempt s.fw with isLatest := false }))), ⟨1, 1⟩) ∧
    List.Sorted (fun x y : Int => x > y)
      ((b :: bs).map (fun s => s.fw.attemptId)) ∧
    ∀ k : Int, k ∈ (b :: bs).map (fun s => s.fw.attemptId) ↔
      ∃ s ∈ uidMatches store u, s.fw.attemptId = k := by
  refine ⟨?_, hb ▸ esAllAttempts_sorted store u,
    fun k => hb ▸ esAllAttempts_mem store u k⟩
  rw [list_eq, hk]
  simp [hu, hes, hb]

/-- C4 witness: two historical groups (ids 1 and 0) produce the live entry
first and then ids 1, 0 descending. -/
theorem C4_witness :
    list ⟨some [⟨⟨some "u", 2, 1, ""⟩, 3⟩, ⟨⟨some "u", 2, 0, ""⟩, 4⟩],
        fun _ => .resp 200 ⟨some "u", 2, 2, ""⟩⟩ "job" =
      (.result 200 (some [⟨2, some "u", true⟩, ⟨1, some "u", false⟩,
        ⟨0, some "u", false⟩]), ⟨1, 1⟩) ∧
    List.Sorted (fun x y : Int => x > y) [1, 0] ∧
    (∀ k : Int, k ∈ [(1 : Int), 0] ↔
      ∃ s ∈ uidMatches [⟨⟨some "u", 2, 1, ""⟩, 3⟩, ⟨⟨some "u", 2, 0, ""⟩, 4⟩]
        "u", s.fw.attemptId = k) :=
  C4_list_success
    ⟨some [⟨⟨some "u", 2, 1, ""⟩, 3⟩, ⟨⟨some "u", 2, 0, ""⟩, 4⟩],
      fun _ => .resp 200 ⟨some "u", 2, 2, ""⟩⟩
    "job" ⟨some "u", 2, 2, ""⟩ "u"
    [⟨⟨some "u", 2, 1, ""⟩, 3⟩, ⟨⟨some "u", 2, 0, ""⟩, 4⟩]
    ⟨⟨some "u", 2, 1, ""⟩, 3⟩ [⟨⟨some "u", 2, 0, ""⟩, 4⟩]
    rfl rfl rfl (by decide)

/-- C5 counterexample: a historical snapshot whose attempt identifier
equals the live object's current attempt identifier is not filtered out,
so a successful `list` result reports the live attempt identifier twice
(once live, once as a historical entry). -/
theorem C5_counterexample :
    (list ⟨some [⟨⟨some "u", 2, 2, "snap"⟩, 7⟩],
        fun _ => .resp 200 ⟨some "u", 2, 2, "live"⟩⟩ "job").1 =
      .result 200 (some [⟨2, some "u", true⟩, ⟨2, some "u", false⟩]) ∧
    AttemptSummary.isLatest ⟨2, some "u", true⟩ = true ∧
    AttemptSummary.isLatest ⟨2, some "u", false⟩ = false ∧
    AttemptSummary.attemptId ⟨2, some "u", false⟩ =
      AttemptSummary.attemptId ⟨2, some "u", true⟩ := by
  decide

/-- C5 amended: in every successful `list` result the live attempt appears
exactly once as the first entry and is the only entry with
`isLatest = true`; historical snapshots of the current attempt are not
deduplicated and may appear again as entries with `isLatest = false`. -/
theorem C5_amended (env : Env) (name : String) (l : List AttemptSummary)
    (h : (list env name).1 = .result 200 (some l)) :
    ∃ live rest, l = live :: rest ∧ live.isLatest = true ∧
      ∀ x ∈ rest, x.isLatest = false := by
  rw [list_eq] at h
  split at h
  · simp at h
  · split at h
    · split at h
      · simp at h
      · split at h
        · simp at h
        · split at h
          · simp at h
          · simp only [Outcome.result.injEq, Option.some.injEq, true_and] at h
            refine ⟨_, _, h.symm, rfl, ?_⟩
            intro x hx
            obtain ⟨s, _, rfl⟩ := List.mem_map.mp hx
            rfl
    · split at h
      · simp at h
      · simp at h

/-- C5 amended witness: the duplicated-identifier result still has the
live entry first and as the only `isLatest = true` entry. -/
theorem C5_amended_witness :
    ∃ live rest,
      [(⟨2, some "u", true⟩ : AttemptSummary), ⟨2, some "u", false⟩] =
        live :: rest ∧ live.isLatest = true ∧
      ∀ x ∈ rest, x.isLatest = false :=
  C5_amended
    ⟨some [⟨⟨some "u", 2, 2, "snap"⟩, 7⟩],
      fun _ => .resp 200 ⟨some "u", 2, 2, "live"⟩⟩
    "job" [⟨2, some "u", true⟩, ⟨2, some "u", false⟩] (by decide)

/-- C6: for every job whose live fetch succeeds (non-nil uid, configured
client) but whose all-attempts query returns zero groups, `list` returns
404 with null data even though a live entry exists. -/
theorem C6_list_no_history_404 (env : Env) (name : String) (fw : Framework)
    (u : String) (store : List Snapshot)
    (hk : env.k8sGet (encodeName name) = .resp 200 fw)
    (hu : fw.uid = some u)
    (hes : env.esClient = some store)
    (hempty : esAllAttempts store u = []) :
    list env name = (.result 404 none, ⟨1, 1⟩) := by
  rw [list_eq, hk]
  simp [hu, hes, hempty]

/-- C6 witness: a store holding only snapshots of another uid yields zero
groups and a 404 despite the successful live fetch. -/
theorem C6_witness :
    list ⟨some [⟨⟨some "other", 2, 0, ""⟩, 1⟩],
        fun _ => .resp 200 ⟨some "u", 2, 2, ""⟩⟩ "job" =
      (.result 404 none, ⟨1, 1⟩) :=
  C6_list_no_history_404
    ⟨some [⟨⟨some "other", 2, 0, ""⟩, 1⟩],
      fun _ => .resp 200 ⟨some "u", 2, 2, ""⟩⟩
    "job" ⟨some "u", 2, 2, ""⟩ "u" [⟨⟨some "other", 2, 0, ""⟩, 1⟩]
    rfl rfl rfl (by decide)

/-- C7: the live-fetch outcome is classified three ways by both `list` and
`get`: an orchestrator 404 returns `{status: 404, data: null}`; any other
non-success status raises `createError` with the upstream status and
message; a transport failure with no structured response is re-raised —
and in every case the historical query is never attempted (search call
count 0). -/
theorem C7_live_fetch_classification (env : Env) (name : String)
    (idx : Int) :
    (∀ msg, env.k8sGet (encodeName name) = .noResp msg →
      list env name = (.exn (.rethrown msg), ⟨1, 0⟩) ∧
      get env name idx = (.exn (.rethrown msg), ⟨1, 0⟩)) ∧
    (∀ d, env.k8sGet (encodeName name) = .resp 404 d →
      list env name = (.result 404 none, ⟨1, 0⟩) ∧
      get env name idx = (.result 404 none, ⟨1, 0⟩)) ∧
    (∀ s d, env.k8sGet (encodeName name) = .resp s d → s ≠ 200 → s ≠ 404 →
      list env name = (.exn (.createError s "UnknownError" d.message),
        ⟨1, 0⟩) ∧
      get env name idx = (.exn (.createError s "UnknownError" d.message),
        ⟨1, 0⟩)) := by
  refine ⟨fun msg hmsg => ⟨?_, ?_⟩, fun d hd => ⟨?_, ?_⟩,
    fun s d hsd hs200 hs404 => ⟨?_, ?_⟩⟩
  · rw [list_eq, hmsg]
  · rw [get_eq, hmsg]
  · rw [list_eq, hd]; simp
  · rw [get_eq, hd]; simp
  · rw [list_eq, hsd]; simp [hs200, hs404]
  · rw [get_eq, hsd]; simp [hs200, hs404]

/-- C7 witness: concrete transport failure, orchestrator 404 and
orchestrator 500 each classify as claimed, with zero search calls. -/
theorem C7_witness :
    (list ⟨none, fun _ => .noResp "socket hang up"⟩ "job" =
      (.exn (.rethrown "socket hang up"), ⟨1, 0⟩)) ∧
    (get ⟨none, fun _ => .resp 404 ⟨none, 0, 0, "nf"⟩⟩ "job" 0 =
      (.result 404 none, ⟨1, 0⟩)) ∧
    (list ⟨none, fun _ => .resp 500 ⟨none, 0, 0, "boom"⟩⟩ "job" =
      (.exn (.createError 500 "UnknownError" "boom"), ⟨1, 0⟩)) :=
  ⟨((C7_live_fetch_classification ⟨none, fun _ => .noResp "socket hang up"⟩
      "job" 0).1 "socket hang up" rfl).1,
   ((C7_live_fetch_classification ⟨none, fun _ => .resp 404 ⟨none, 0, 0, "nf"⟩⟩
      "job" 0).2.1 ⟨none, 0, 0, "nf"⟩ rfl).2,
   ((C7_live_fetch_classification ⟨none, fun _ => .resp 500 ⟨none, 0, 0, "boom"⟩⟩
      "job" 0).2.2 500 ⟨none, 0, 0, "boom"⟩ rfl (by decide) (by decide)).1⟩

/-- C8: `healthCheck` swallows probe failures into the boolean `false`:
a thrown probe exception and any non-200 probe status both resolve to
`false` (the function is total, so it never propagates an exception). -/
theorem C8_healthCheck_never_throws (launcherType : String)
    (esClient : Option (List Snapshot)) (probe : ProbeOutcome) :
    (∀ msg, probe = .exn msg →
      healthCheck launcherType esClient probe = false) ∧
    (∀ statusCode, probe = .result statusCode → statusCode ≠ 200 →
      healthCheck launcherType esClient probe = false) := by
  constructor
  · intro msg hmsg
    cases esClient <;>
      simp [healthCheck, yarnGuard, jsStrictEqBoolString, hmsg]
  · intro sc hsc hne
    cases esClient <;>
      simp [healthCheck, yarnGuard, jsStrictEqBoolString, hsc, hne]

/-- C8 witness: a connection-refused exception and a 503 probe status both
resolve to `false`. -/
theorem C8_witness :
    healthCheck "k8s" (some []) (.exn "connect ECONNREFUSED") = false ∧
    healthCheck "k8s" (some []) (.result 503) = false :=
  ⟨(C8_healthCheck_never_throws "k8s" (some [])
      (.exn "connect ECONNREFUSED")).1 "connect ECONNREFUSED" rfl,
   (C8_healthCheck_never_throws "k8s" (some []) (.result 503)).2 503 rfl
     (by decide)⟩

/-- C9: `encodeName` is a pure total function; on the non-platform branch
(name starts with the marker or contains no `~`) the result is the name
with one leading marker occurrence stripped (`stripMarker` removes exactly
one occurrence), lower-cased and filtered to `[a-z0-9]`; on the other
branch the result is a 32-character string of lower-case hex digits,
deterministic because `md5Hex` is a function. -/
theorem C9_encodeName_shape (name : String) :
    ((leadsWith marker name.data || !(name.data.contains '~')) = true →
      encodeName name = convertName ⟨stripMarker name.data⟩ ∧
      ∀ c ∈ (encodeName name).data, isLowerAlnum c = true) ∧
    ((leadsWith marker name.data || !(name.data.contains '~')) = false →
      (encodeName name).length = 32 ∧
      ∀ c ∈ (encodeName name).data, isHexChar c = true) ∧
    (∀ l : List Char, stripMarker (marker ++ l) = l) := by
  refine ⟨?_, ?_, stripMarker_append⟩
  · intro h
    rw [encodeName, if_pos h]
    exact ⟨rfl, convertName_alnum _⟩
  · intro h
    rw [encodeName, if_neg (by rw [h]; simp)]
    refine ⟨md5Hex_length name, ?_⟩
    intro c hc
    exact hexOfBytes_hex _ c hc

/-- C9 witness: a platform-managed name hashes to 32 hex characters; a
marker-prefixed name is stripped and normalized to `[a-z0-9]`. -/
theorem C9_witness :
    ((encodeName "admin~job1").length = 32 ∧
      ∀ c ∈ (encodeName "admin~job1").data, isHexChar c = true) ∧
    (encodeName "unknownJob-01" =
        convertName ⟨stripMarker (String.data "unknownJob-01")⟩ ∧
      ∀ c ∈ (encodeName "unknownJob-01").data, isLowerAlnum c = true) :=
  ⟨(C9_encodeName_shape "admin~job1").2.1 (by decide),
   (C9_encodeName_shape "unknownJob-01").1 (by decide)⟩

/-- C10: when the live fetch succeeds with status 200 but the returned
object's `metadata.uid` is nil, `list` and (in its below-boundary branch)
`get` return 404 with null data before issuing any historical query
(search call count 0). -/
theorem C10_nil_uid_404 (env : Env) (name : String) (idx : Int)
    (fw : Framework)
    (hk : env.k8sGet (encodeName name) = .resp 200 fw)
    (hu : fw.uid = none) :
    list env name = (.result 404 none, ⟨1, 0⟩) ∧
    (idx < fw.maxRetryCount →
      get env name idx = (.result 404 none, ⟨1, 0⟩)) := by
  constructor
  · rw [list_eq, hk]; simp [hu]
  · intro hlt; rw [get_eq, hk]; simp [hu, hlt]

/-- C10 witness: a 200 response with nil uid yields 404 from both
operations without a search call. -/
theorem C10_witness :
    list ⟨some [], fun _ => .resp 200 ⟨none, 2, 0, ""⟩⟩ "job" =
      (.result 404 none, ⟨1, 0⟩) ∧
    get ⟨some [], fun _ => .resp 200 ⟨none, 2, 0, ""⟩⟩ "job" 0 =
      (.result 404 none, ⟨1, 0⟩) :=
  ⟨(C10_nil_uid_404 ⟨some [], fun _ => .resp 200 ⟨none, 2, 0, ""⟩⟩
      "job" 0 ⟨none, 2, 0, ""⟩ rfl rfl).1,
   (C10_nil_uid_404 ⟨some [], fun _ => .resp 200 ⟨none, 2, 0, ""⟩⟩
      "job" 0 ⟨none, 2, 0, ""⟩ rfl rfl).2 (by decide)⟩

end JobAttemptModel
